import Mathlib

/-!
# eth-resolver-go: a shallow embedding of `resolver.go`

The Go package `ethresolver` is embedded as pure Lean functions with explicit state:

* Go `string`s are byte sequences (`GoString`), so `strings.HasPrefix`, `len` and slicing
  act on bytes exactly as in Go;
* the package-level variable `DefaultConfig` is a field of `Globals`, and a `*Config` is a
  `ConfigPtr` that is loaded from / stored to `Globals`;
* the collaborators (`ethclient.DialContext`, `ens.Resolve`, `contracts.NewNKNAccount`,
  `NKNAccount.GetNKNAddr`, the wall clock read by `go-cache`) are fields of `World`;
* every call on a collaborator or on the cache is recorded in a trace of `Event`s.
-/

namespace EthResolver

/-! ## Go base types -/

/-- A Go `byte`. -/
abbrev Byte := Fin 256

/-- A Go `string`: an immutable sequence of bytes. -/
abbrev GoString := List Byte

/-- The bytes of a string literal (Go source files are UTF-8). -/
def str (s : String) : GoString := s.toUTF8.data.toList.map (fun b => b.val)

/-- A Go `error` value. -/
structure GoError where
  msg : String
deriving DecidableEq, Repr

/-- Two's-complement wrap-around of `int64` arithmetic. -/
def wrapInt64 (x : Int) : Int := (x + 2 ^ 63) % 2 ^ 64 - 2 ^ 63

/-- `time.Millisecond`, in nanoseconds. -/
def Millisecond : Int := 1000000

/-- `time.Second`, in nanoseconds. -/
def Second : Int := 1000000000

/-- Multiplication of two `time.Duration`s (an `int64` product). -/
def Duration.mul (a b : Int) : Int := wrapInt64 (a * b)

/-- `strings.HasPrefix(s, prefix)`: `len(s) >= len(prefix) && s[:len(prefix)] == prefix`. -/
def HasPrefix (s pre : GoString) : Bool :=
  decide (s.length ≥ pre.length) && decide (s.take pre.length = pre)

/-! ## Configuration -/

/-- The constant `PREFIX`. -/
def PREFIX : GoString := str "ETH:"

/-- The constant `RPC_SERVER`. -/
def RPC_SERVER : GoString := str ""

/-- The constant `CONTRACT_ADDRESS`. -/
def CONTRACT_ADDRESS : GoString := str ""

/-- The constant `cache.NoExpiration` of go-cache. -/
def NoExpiration : Int := -1

/-- The constant `cache.DefaultExpiration` of go-cache. -/
def DefaultExpiration : Int := 0

/-- The struct `Config`. `CacheTimeout` is a `time.Duration` (`int64`), `DialTimeout` an `int`. -/
structure Config where
  Prefix : GoString
  RpcServer : GoString
  ContractAddress : GoString
  CacheTimeout : Int
  DialTimeout : Int
deriving DecidableEq, Repr

/-- The initialiser of the package variable `DefaultConfig`: the built-in defaults. -/
def DefaultConfig : Config :=
  { Prefix := PREFIX
    RpcServer := RPC_SERVER
    ContractAddress := CONTRACT_ADDRESS
    CacheTimeout := NoExpiration
    DialTimeout := 5000 }

/-- The mutable package-level state: the variable `DefaultConfig`. -/
structure Globals where
  DefaultConfig : Config
deriving DecidableEq, Repr

/-- The package state when the program starts. -/
def Globals.init : Globals := ⟨EthResolver.DefaultConfig⟩

/-- A `*Config` handed out by the package. The only address the package ever takes is
`&DefaultConfig`. -/
inductive ConfigPtr where
  | DefaultConfig : ConfigPtr
deriving DecidableEq, Repr

/-- Dereference a `*Config`. -/
def ConfigPtr.load (g : Globals) : ConfigPtr → Config
  | .DefaultConfig => g.DefaultConfig

/-- Write through a `*Config`. -/
def ConfigPtr.store (g : Globals) : ConfigPtr → Config → Globals
  | .DefaultConfig, c => { g with DefaultConfig := c }

/-- The function `GetDefaultConfig`: `return &DefaultConfig`. -/
def GetDefaultConfig : ConfigPtr := ConfigPtr.DefaultConfig

/-- One leaf field of `mergo`'s `deepMerge`:
`mustSet := (isEmptyValue(dst) || overwrite) && (!isEmptyValue(src) || overwriteWithEmptySrc)`. -/
def mergeField {α : Type} (isEmptyValue : α → Bool) (overwrite overwriteWithEmptySrc : Bool)
    (dst src : α) : α :=
  if (isEmptyValue dst || overwrite) && (!isEmptyValue src || overwriteWithEmptySrc) then src
  else dst

/-- `isEmptyValue` of mergo on a string: `v.Len() == 0`. -/
def isEmptyString (s : GoString) : Bool := s.length == 0

/-- `isEmptyValue` of mergo on an integer kind: `v.Int() == 0`. -/
def isEmptyInt (n : Int) : Bool := n == 0

/-- The call `mergo.Merge(dst, src, mergo.WithOverride)` on two `*Config` (library code, by its
documented behaviour): every field of `dst` is replaced by the field of `src` when the latter is
not the zero value of its type. `WithOverride` sets `overwrite`, and `overwriteWithEmptySrc`
stays false. Both arguments are non-nil pointers to the same struct type, for which the library
reports no error. The result is the new content of `*dst`. -/
def Merge (dst src : Config) : Except GoError Config :=
  .ok
    { Prefix := mergeField isEmptyString true false dst.Prefix src.Prefix
      RpcServer := mergeField isEmptyString true false dst.RpcServer src.RpcServer
      ContractAddress := mergeField isEmptyString true false dst.ContractAddress src.ContractAddress
      CacheTimeout := mergeField isEmptyInt true false dst.CacheTimeout src.CacheTimeout
      DialTimeout := mergeField isEmptyInt true false dst.DialTimeout src.DialTimeout }

/-- The function `MergeConfig`. `config` is `none` for a nil pointer and otherwise the struct the
pointer refers to. The result is the returned pointer (or error) and the package state after
the call: `merged` is `&DefaultConfig`, so the merge writes into the package variable. -/
def MergeConfig (g : Globals) (config : Option Config) : Except GoError ConfigPtr × Globals :=
  let merged := GetDefaultConfig
  match config with
  | some config =>
    match Merge (merged.load g) config with
    | .error err => (.error err, g)
    | .ok v => (.ok merged, merged.store g v)
  | none => (.ok merged, g)

/-- The configuration a call of `MergeConfig` hands back, read through the returned pointer in
the package state after the call (`none` when the call failed). -/
def MergeConfig.value (g : Globals) (config : Option Config) : Option Config :=
  match MergeConfig g config with
  | (.ok p, g') => some (p.load g')
  | (.error _, _) => none

/-- The overlay the specification describes: field by field, the override's value when it is
set (non-zero) and the base value otherwise. -/
def overlay (base c : Config) : Config :=
  { Prefix := if c.Prefix = [] then base.Prefix else c.Prefix
    RpcServer := if c.RpcServer = [] then base.RpcServer else c.RpcServer
    ContractAddress := if c.ContractAddress = [] then base.ContractAddress else c.ContractAddress
    CacheTimeout := if c.CacheTimeout = 0 then base.CacheTimeout else c.CacheTimeout
    DialTimeout := if c.DialTimeout = 0 then base.DialTimeout else c.DialTimeout }

/-! ## Hexadecimal strings and addresses (`encoding/hex`, go-ethereum `common`) -/

/-- The table `hextable` of `encoding/hex`. -/
def hextable : GoString := str "0123456789abcdef"

/-- The lookup `hextable[n]` for a nibble `n`. -/
def hexDigit (n : Nat) : Byte := hextable.getD n 0

/-- `hex.EncodeToString`: for each byte `v`, `hextable[v>>4]` then `hextable[v&0x0f]`. -/
def EncodeToString (src : List Byte) : GoString :=
  src.flatMap fun v => [hexDigit (v.val / 16), hexDigit (v.val % 16)]

/-- The value of one hexadecimal character (`fromHexChar` of `encoding/hex`), `none` when the
byte is not a hexadecimal digit. -/
def fromHexChar (c : Byte) : Option Nat :=
  if 48 ≤ c.val ∧ c.val ≤ 57 then some (c.val - 48)
  else if 97 ≤ c.val ∧ c.val ≤ 102 then some (c.val - 97 + 10)
  else if 65 ≤ c.val ∧ c.val ≤ 70 then some (c.val - 65 + 10)
  else none

/-- `common.Hex2Bytes`: `h, _ := hex.DecodeString(str)`. The error is dropped, which leaves the
bytes decoded before the first invalid character (or before a trailing odd character). -/
def Hex2Bytes : GoString → List Byte
  | p :: q :: rest =>
    match fromHexChar p, fromHexChar q with
    | some a, some b => Fin.ofNat (a * 16 + b) :: Hex2Bytes rest
    | _, _ => []
  | _ => []

/-- `has0xPrefix` of go-ethereum. -/
def has0xPrefix : GoString → Bool
  | a :: b :: _ => a == 48 && (b == 120 || b == 88)
  | _ => false

/-- `isHexCharacter` of go-ethereum. -/
def isHexCharacter (c : Byte) : Bool :=
  (decide (48 ≤ c.val) && decide (c.val ≤ 57)) || (decide (97 ≤ c.val) && decide (c.val ≤ 102))
    || (decide (65 ≤ c.val) && decide (c.val ≤ 70))

/-- `isHex` of go-ethereum: even length and only hexadecimal characters. -/
def isHex (s : GoString) : Bool :=
  if s.length % 2 != 0 then false else s.all isHexCharacter

/-- `common.AddressLength`. -/
def AddressLength : Nat := 20

/-- `common.IsHexAddress`. -/
def IsHexAddress (s : GoString) : Bool :=
  let s := if has0xPrefix s then s.drop 2 else s
  s.length == 2 * AddressLength && isHex s

/-- `common.FromHex`. -/
def FromHex (s : GoString) : List Byte :=
  let s := if has0xPrefix s then s.drop 2 else s
  let s := if s.length % 2 == 1 then (48 : Byte) :: s else s
  Hex2Bytes s

/-- The content of an address after `SetBytes(b)` on a zero address: `b` is cropped from the
left to its last 20 bytes and copied right-aligned. -/
def setBytes (b : List Byte) : List Byte :=
  let b := if b.length > AddressLength then b.drop (b.length - AddressLength) else b
  List.replicate (AddressLength - b.length) (0 : Byte) ++ b

/-- `common.Address`: the array type `[20]byte`. -/
abbrev Address := { l : List Byte // l.length = 20 }

/-- `common.BytesToAddress`. -/
def BytesToAddress (b : List Byte) : Address :=
  ⟨setBytes b, by
    unfold setBytes AddressLength
    by_cases h : b.length > 20
    · simp only [if_pos h, List.length_append, List.length_replicate, List.length_drop]; omega
    · simp only [if_neg h, List.length_append, List.length_replicate]; omega⟩

/-- `common.HexToAddress`. -/
def HexToAddress (s : GoString) : Address := BytesToAddress (FromHex s)

/-- The zero value `common.Address{}`. -/
def Address.zero : Address := ⟨List.replicate 20 0, by simp⟩

/-- `Address.Hex`: the EIP-55 checksummed form. The lower-case digits are hashed and a letter
at position `i` is put in upper case when nibble `i` of the hash exceeds 7. The hash function
(Keccak-256) is a parameter. -/
def Address.Hex (keccak256 : List Byte → List Byte) (a : Address) : GoString :=
  let unchecksummed := EncodeToString a.val
  let hash := keccak256 unchecksummed
  str "0x" ++ unchecksummed.enum.map fun ic =>
    let hashByte := (hash.getD (ic.1 / 2) 0).val
    let hashByte := if ic.1 % 2 == 0 then hashByte / 16 else hashByte % 16
    if ic.2.val > 57 && hashByte > 7 then ic.2 - 32 else ic.2

/-- The lower-case form of a hexadecimal character. -/
def toLowerHex (c : Byte) : Byte := if 65 ≤ c.val ∧ c.val ≤ 70 then c + 32 else c

/-- A string without its optional `0x` / `0X` prefix. -/
def trim0x (s : GoString) : GoString := if has0xPrefix s then s.drop 2 else s

/-- A character check that reads a hexadecimal character back as a nibble whose digit is the
lower-case form of the character. -/
def hexCharReadsBack (c : Byte) : Bool :=
  match fromHexChar c with
  | some n => decide (n < 16) && (hexDigit n == toLowerHex c)
  | none => false

/-! ## The cache (`github.com/patrickmn/go-cache`) -/

/-- An `Item` of go-cache. The stored object is always a Go `string` here. `Expiration` is a
Unix time in nanoseconds, and `0` for an entry that never expires. -/
structure Item where
  Object : GoString
  Expiration : Int
deriving DecidableEq, Repr

/-- The struct `cache.Cache` (library code, by its documented behaviour): the default
expiration and the map `items`. The janitor goroutine, which deletes expired items in the
background, is not part of a call and is left out. -/
structure Cache where
  defaultExpiration : Int
  items : GoString → Option Item

/-- `cache.New(defaultExpiration, cleanupInterval)`: an empty cache; a default expiration of
`0` is replaced by `-1`. -/
def Cache.New (defaultExpiration _cleanupInterval : Int) : Cache :=
  { defaultExpiration := if defaultExpiration = 0 then -1 else defaultExpiration
    items := fun _ => none }

/-- `Cache.Get(k)` at wall-clock time `now`: the object when the key is present and its
expiration is `0` or not yet passed. -/
def Cache.Get (c : Cache) (k : GoString) (now : Int) : Option GoString :=
  match c.items k with
  | none => none
  | some item => if item.Expiration > 0 ∧ now > item.Expiration then none else some item.Object

/-- The internal `set` of go-cache at time `now`: `DefaultExpiration` stands for the default
of the cache, and only a positive duration gives an expiration time. -/
def Cache.set (c : Cache) (k x : GoString) (d : Int) (now : Int) : Cache :=
  let d := if d = DefaultExpiration then c.defaultExpiration else d
  let e := if d > 0 then now + d else 0
  { c with items := fun k' => if k' = k then some ⟨x, e⟩ else c.items k' }

/-- `Cache.Add(k, x, d)` at time `now`: stores only when `Get` finds nothing under `k`, and
reports an error otherwise. -/
def Cache.Add (c : Cache) (k x : GoString) (d : Int) (now : Int) : Cache × Option GoError :=
  match c.Get k now with
  | some _ => (c, some ⟨"Item already exists"⟩)
  | none => (c.set k x d now, none)

/-! ## Collaborators and their trace -/

/-- A connection handle (`*ethclient.Client`). -/
abbrev Conn := Nat

/-- A bound contract handle (`*contracts.NKNAccount`). -/
abbrev Contract := Nat

/-- A `context.Context` as `Resolve` builds it: `none` for `context.Background()`, and
`some d` for `context.WithTimeout(context.Background(), d)` with `d` in nanoseconds. -/
abbrev Context := Option Int

/-- The struct `bind.CallOpts` (`Context` is only ever nil here). -/
structure CallOpts where
  Pending : Bool
  From : Address
  BlockNumber : Option Int
  Context : Option Context
deriving DecidableEq

/-- The record `GetNKNAddr` returns. The public key is a fixed-size byte array whose size is
set by the contract binding. -/
structure NKNAddr where
  Identifier : GoString
  PublicKey : List Byte
deriving DecidableEq, Repr

/-- What the outside world answers during one call: the four collaborators, the hash used by
`Address.Hex`, and the wall clock at the moment of `cache.Get` and of `cache.Add`. Each
collaborator is called at most once per call of `Resolve` or `NewResolver`, so a function of
the arguments describes any behaviour. -/
structure World where
  DialContext : Context → GoString → Except GoError Conn
  ensResolve : Conn → GoString → Except GoError Address
  NewNKNAccount : Address → Conn → Except GoError Contract
  GetNKNAddr : Contract → CallOpts → Address → Except GoError NKNAddr
  keccak256 : List Byte → List Byte
  nowAtGet : Int
  nowAtAdd : Int

/-- The observable steps of a call, in the order they happen. -/
inductive Event where
  | cacheGet (k : GoString)
  | cacheAdd (k x : GoString) (d : Int)
  | dial (ctx : Context) (rawurl : GoString)
  | cancel
  | connClose (conn : Conn)
  | ensResolve (conn : Conn) (input : GoString)
  | newNKNAccount (address : Address) (conn : Conn)
  | getNKNAddr (contract : Contract) (opts : CallOpts) (account : Address)
deriving DecidableEq

/-- The event is a call of the name-resolution collaborator. -/
def Event.isEnsResolve : Event → Bool
  | .ensResolve _ _ => true
  | _ => false

/-- The event is a call on the contract collaborator (bind or query). -/
def Event.isContract : Event → Bool
  | .newNKNAccount _ _ => true
  | .getNKNAddr _ _ _ => true
  | _ => false

/-- The event is a contract query. -/
def Event.isQuery : Event → Bool
  | .getNKNAddr _ _ _ => true
  | _ => false

/-- The event is a dial. -/
def Event.isDial : Event → Bool
  | .dial _ _ => true
  | _ => false

/-- The event is a write to the cache. -/
def Event.isCacheAdd : Event → Bool
  | .cacheAdd _ _ _ => true
  | _ => false

/-! ## The resolver -/

/-- The struct `Resolver`: `config` is a pointer, `cache` the state of the cache it owns. -/
structure Resolver where
  config : ConfigPtr
  cache : Cache

/-- The context `NewResolver` and `Resolve` dial with: `context.Background()`, replaced by
`context.WithTimeout(ctx, time.Duration(DialTimeout)*time.Millisecond)` when `DialTimeout > 0`. -/
def dialCtx (DialTimeout : Int) : Context :=
  if DialTimeout > 0 then some (Duration.mul DialTimeout Millisecond) else none

/-- The `defer cancel()` registered together with the timeout context. -/
def deferredCancel (DialTimeout : Int) : List Event :=
  if DialTimeout > 0 then [Event.cancel] else []

/-- What a call of `NewResolver` returns and does. -/
structure NewResolverResult where
  resolver : Option Resolver
  err : Option GoError
  trace : List Event
  globals : Globals

/-- The function `NewResolver`. Deferred calls (`conn.Close`, then `cancel`) close the trace. -/
def NewResolver (g : Globals) (w : World) (config : Option Config) : NewResolverResult :=
  match MergeConfig g config with
  | (.error err, g) => ⟨none, some err, [], g⟩
  | (.ok config, g) =>
    let cfg := config.load g
    let ctx := dialCtx cfg.DialTimeout
    let deferred := deferredCancel cfg.DialTimeout
    match w.DialContext ctx cfg.RpcServer with
    | .error err => ⟨none, some err, [.dial ctx cfg.RpcServer] ++ deferred, g⟩
    | .ok conn =>
      let deferred := Event.connClose conn :: deferred
      let address := HexToAddress cfg.ContractAddress
      match w.NewNKNAccount address conn with
      | .error err =>
        ⟨none, some err, [.dial ctx cfg.RpcServer, .newNKNAccount address conn] ++ deferred, g⟩
      | .ok _ =>
        ⟨some ⟨config, Cache.New (Duration.mul cfg.CacheTimeout Second) (60 * Second)⟩, none,
          [.dial ctx cfg.RpcServer, .newNKNAccount address conn] ++ deferred, g⟩

/-- What a call of `Resolve` returns and does: the two return values, the trace, and the cache
after the call. -/
structure ResolveResult where
  value : GoString
  err : Option GoError
  trace : List Event
  cache : Cache

/-- The call options `Resolve` passes to `GetNKNAddr`. -/
def callOpts : CallOpts :=
  { Pending := false, From := Address.zero, BlockNumber := none, Context := none }

/-- Lines 112-119 of `Resolve`: the key is classified with `IsHexAddress`; a key that is not a
hexadecimal address is resolved as a name, and the address found is rendered with `Hex`. The
result is the new value of `addr` (or the error) and the calls made. -/
def resolveName (w : World) (conn : Conn) (address : GoString) :
    Except GoError GoString × List Event :=
  let addr := address
  let verify := IsHexAddress address
  if !verify then
    match w.ensResolve conn addr with
    | .error err => (.error err, [.ensResolve conn addr])
    | .ok ensAddr => (.ok (ensAddr.Hex w.keccak256), [.ensResolve conn addr])
  else (.ok addr, [])

/-- The cache key of an identifier: `address[len(s.config.Prefix):]`. -/
def cacheKey (g : Globals) (s : Resolver) (address : GoString) : GoString :=
  address.drop (s.config.load g).Prefix.length

/-- The output composed from a record (lines 135-138 of `Resolve`). -/
def compose (res : NKNAddr) : GoString :=
  let nknAddr := EncodeToString res.PublicKey
  if res.Identifier ≠ [] then res.Identifier ++ str "." ++ nknAddr else nknAddr

/-- The method `Resolver.Resolve`. The configuration is read through the resolver's pointer in
the package state `g`. Deferred calls (`conn.Close`, then `cancel`) close the trace. -/
def Resolve (g : Globals) (w : World) (s : Resolver) (address : GoString) : ResolveResult :=
  let config := s.config.load g
  if !HasPrefix address config.Prefix then ⟨[], none, [], s.cache⟩
  else
    let address := cacheKey g s address
    match s.cache.Get address w.nowAtGet with
    | some addrCache => ⟨addrCache, none, [.cacheGet address], s.cache⟩
    | none =>
      let ctx := dialCtx config.DialTimeout
      let deferred := deferredCancel config.DialTimeout
      let t := [Event.cacheGet address, .dial ctx config.RpcServer]
      match w.DialContext ctx config.RpcServer with
      | .error err => ⟨[], some err, t ++ deferred, s.cache⟩
      | .ok conn =>
        let deferred := Event.connClose conn :: deferred
        match resolveName w conn address with
        | (.error err, te) => ⟨[], some err, t ++ te ++ deferred, s.cache⟩
        | (.ok addr, te) =>
          let t := t ++ te ++ [.newNKNAccount (HexToAddress config.ContractAddress) conn]
          match w.NewNKNAccount (HexToAddress config.ContractAddress) conn with
          | .error err => ⟨[], some err, t ++ deferred, s.cache⟩
          | .ok contract =>
            let t := t ++ [.getNKNAddr contract callOpts (HexToAddress addr)]
            match w.GetNKNAddr contract callOpts (HexToAddress addr) with
            | .error err => ⟨[], some err, t ++ deferred, s.cache⟩
            | .ok res =>
              let nknAddr := compose res
              let cache := (s.cache.Add address nknAddr DefaultExpiration w.nowAtAdd).1
              ⟨nknAddr, none,
                t ++ [.cacheAdd address nknAddr DefaultExpiration] ++ deferred, cache⟩

/-! ## Sample inputs -/

/-- An override that sets only the prefix. -/
def prefixOnly (p : GoString) : Config :=
  { Prefix := p, RpcServer := [], ContractAddress := [], CacheTimeout := 0, DialTimeout := 0 }

/-- An override that sets only the dial timeout. -/
def dialTimeoutOnly (n : Int) : Config :=
  { Prefix := [], RpcServer := [], ContractAddress := [], CacheTimeout := 0, DialTimeout := n }

/-- A 20-byte address used as the answer of the name-resolution collaborator. -/
def sampleAddress : Address := ⟨List.replicate 20 0xab, by decide⟩

/-- A world in which every collaborator succeeds: the contract returns the identifier
`alice` and a two-byte key. -/
def sampleWorld : World :=
  { DialContext := fun _ _ => .ok 1
    ensResolve := fun _ _ => .ok sampleAddress
    NewNKNAccount := fun _ _ => .ok 7
    GetNKNAddr := fun _ _ _ => .ok ⟨str "alice", [0x11, 0xfe]⟩
    keccak256 := fun _ => []
    nowAtGet := 100
    nowAtAdd := 200 }

/-- A world in which each collaborator fails with an error of its own, except those listed
as working. -/
def failingWorld (dialOk ensOk bindOk : Bool) : World :=
  { DialContext := fun _ _ => if dialOk then .ok 1 else .error ⟨"dial"⟩
    ensResolve := fun _ _ => if ensOk then .ok sampleAddress else .error ⟨"ens"⟩
    NewNKNAccount := fun _ _ => if bindOk then .ok 7 else .error ⟨"bind"⟩
    GetNKNAddr := fun _ _ _ => .error ⟨"call"⟩
    keccak256 := fun _ => []
    nowAtGet := 100
    nowAtAdd := 200 }

/-- A resolver on the package configuration with an empty cache that never expires. -/
def sampleResolver : Resolver := ⟨ConfigPtr.DefaultConfig, Cache.New (-1000000000) (60 * Second)⟩

/-! ## Theorems -/

theorem mergeField_string (dst src : GoString) :
    mergeField isEmptyString true false dst src = if src = [] then dst else src := by
  cases src <;> simp [mergeField, isEmptyString]

theorem mergeField_int (dst src : Int) :
    mergeField isEmptyInt true false dst src = if src = 0 then dst else src := by
  by_cases h : src = 0 <;> simp [mergeField, isEmptyInt, h]

theorem Merge_eq_overlay (dst src : Config) : Merge dst src = .ok (overlay dst src) := by
  simp only [Merge, overlay, mergeField_string, mergeField_int]

/-- On any package state, `MergeConfig` of a non-nil override succeeds, returns `&DefaultConfig`
and leaves in `DefaultConfig` the overlay of its previous content with the override. -/
theorem MergeConfig_some (g : Globals) (c : Config) :
    MergeConfig g (some c) = (.ok ConfigPtr.DefaultConfig, ⟨overlay g.DefaultConfig c⟩) := by
  simp [MergeConfig, GetDefaultConfig, ConfigPtr.load, ConfigPtr.store, Merge_eq_overlay]

theorem MergeConfig_none (g : Globals) :
    MergeConfig g none = (.ok ConfigPtr.DefaultConfig, g) := rfl

/-- On the first call of a process, `MergeConfig` hands back the built-in defaults overlaid by
the override. -/
theorem MergeConfig_first_call (c : Config) :
    MergeConfig.value Globals.init (some c) = some (overlay DefaultConfig c) ∧
    MergeConfig.value Globals.init none = some DefaultConfig := by
  constructor
  · simp [MergeConfig.value, MergeConfig_some, ConfigPtr.load, Globals.init]
  · rfl

/-- C1: an identifier that does not start with the resolver's prefix yields the empty string and
a nil error, with an empty trace (no dial, no collaborator call, no cache access) and the
cache unchanged. -/
theorem Resolve_prefix_mismatch (g : Globals) (w : World) (s : Resolver) (address : GoString)
    (h : HasPrefix address (s.config.load g).Prefix = false) :
    (Resolve g w s address).value = [] ∧ (Resolve g w s address).err = none ∧
    (Resolve g w s address).trace = [] ∧ (Resolve g w s address).cache = s.cache := by
  simp [Resolve, h]

theorem Resolve_prefix_mismatch_witness :
    (Resolve Globals.init sampleWorld sampleResolver (str "NOTETH:foo")).value = [] ∧
    (Resolve Globals.init sampleWorld sampleResolver (str "NOTETH:foo")).err = none ∧
    (Resolve Globals.init sampleWorld sampleResolver (str "NOTETH:foo")).trace = [] ∧
    (Resolve Globals.init sampleWorld sampleResolver (str "NOTETH:foo")).cache
      = sampleResolver.cache :=
  Resolve_prefix_mismatch Globals.init sampleWorld sampleResolver (str "NOTETH:foo") (by decide)

/-- C5: on a cache miss, a failing step (dial, name resolution, contract bind, contract query)
makes `Resolve` return the empty string with exactly that step's error; the trace ends with
the failed call followed only by the deferred close and cancel, so no later step runs and no
step is repeated, and the cache is unchanged. -/
theorem Resolve_error_propagation (g : Globals) (w : World) (s : Resolver) (address : GoString)
    (err : GoError)
    (hp : HasPrefix address (s.config.load g).Prefix = true)
    (hmiss : s.cache.Get (cacheKey g s address) w.nowAtGet = none) :
    (w.DialContext (dialCtx (s.config.load g).DialTimeout) (s.config.load g).RpcServer
        = .error err →
      (Resolve g w s address).value = [] ∧ (Resolve g w s address).err = some err ∧
      (Resolve g w s address).cache = s.cache ∧
      (Resolve g w s address).trace =
        [.cacheGet (cacheKey g s address),
         .dial (dialCtx (s.config.load g).DialTimeout) (s.config.load g).RpcServer]
        ++ deferredCancel (s.config.load g).DialTimeout) ∧
    (∀ conn, w.DialContext (dialCtx (s.config.load g).DialTimeout) (s.config.load g).RpcServer
        = .ok conn →
      (IsHexAddress (cacheKey g s address) = false →
        w.ensResolve conn (cacheKey g s address) = .error err →
        (Resolve g w s address).value = [] ∧ (Resolve g w s address).err = some err ∧
        (Resolve g w s address).cache = s.cache ∧
        (Resolve g w s address).trace =
          [.cacheGet (cacheKey g s address),
           .dial (dialCtx (s.config.load g).DialTimeout) (s.config.load g).RpcServer,
           .ensResolve conn (cacheKey g s address), .connClose conn]
          ++ deferredCancel (s.config.load g).DialTimeout) ∧
      (∀ addr te, resolveName w conn (cacheKey g s address) = (.ok addr, te) →
        (w.NewNKNAccount (HexToAddress (s.config.load g).ContractAddress) conn = .error err →
          (Resolve g w s address).value = [] ∧ (Resolve g w s address).err = some err ∧
          (Resolve g w s address).cache = s.cache ∧
          (Resolve g w s address).trace =
            [.cacheGet (cacheKey g s address),
             .dial (dialCtx (s.config.load g).DialTimeout) (s.config.load g).RpcServer]
            ++ te ++
            [.newNKNAccount (HexToAddress (s.config.load g).ContractAddress) conn,
             .connClose conn]
            ++ deferredCancel (s.config.load g).DialTimeout) ∧
        (∀ contract,
          w.NewNKNAccount (HexToAddress (s.config.load g).ContractAddress) conn = .ok contract →
          w.GetNKNAddr contract callOpts (HexToAddress addr) = .error err →
          (Resolve g w s address).value = [] ∧ (Resolve g w s address).err = some err ∧
          (Resolve g w s address).cache = s.cache ∧
          (Resolve g w s address).trace =
            [.cacheGet (cacheKey g s address),
             .dial (dialCtx (s.config.load g).DialTimeout) (s.config.load g).RpcServer]
            ++ te ++
            [.newNKNAccount (HexToAddress (s.config.load g).ContractAddress) conn,
             .getNKNAddr contract callOpts (HexToAddress addr), .connClose conn]
            ++ deferredCancel (s.config.load g).DialTimeout))) := by
  refine ⟨?_, ?_⟩
  · intro hd
    simp [Resolve, hp, hmiss, hd]
  · intro conn hd
    refine ⟨?_, ?_⟩
    · intro hx he
      simp [Resolve, hp, hmiss, hd, resolveName, hx, he]
    · intro addr te hr
      refine ⟨?_, ?_⟩
      · intro hb
        simp [Resolve, hp, hmiss, hd, hr, hb]
      · intro contract hb hq
        simp [Resolve, hp, hmiss, hd, hr, hb, hq]

theorem Resolve_error_propagation_witness :
    (Resolve Globals.init (failingWorld false false false) sampleResolver
        (str "ETH:bob.eth")).err = some ⟨"dial"⟩ ∧
    (Resolve Globals.init (failingWorld true false false) sampleResolver
        (str "ETH:bob.eth")).err = some ⟨"ens"⟩ ∧
    (Resolve Globals.init (failingWorld true true false) sampleResolver
        (str "ETH:bob.eth")).err = some ⟨"bind"⟩ ∧
    (Resolve Globals.init (failingWorld true true true) sampleResolver
        (str "ETH:bob.eth")).err = some ⟨"call"⟩ :=
  ⟨((Resolve_error_propagation Globals.init (failingWorld false false false) sampleResolver
      (str "ETH:bob.eth") ⟨"dial"⟩ (by decide) (by decide)).1 rfl).2.1,
   (((Resolve_error_propagation Globals.init (failingWorld true false false) sampleResolver
      (str "ETH:bob.eth") ⟨"ens"⟩ (by decide) (by decide)).2 1 rfl).1 (by decide) rfl).2.1,
   ((((Resolve_error_propagation Globals.init (failingWorld true true false) sampleResolver
      (str "ETH:bob.eth") ⟨"bind"⟩ (by decide) (by decide)).2 1 rfl).2 _ _ rfl).1 rfl).2.1,
   ((((Resolve_error_propagation Globals.init (failingWorld true true true) sampleResolver
      (str "ETH:bob.eth") ⟨"call"⟩ (by decide) (by decide)).2 1 rfl).2 _ _ rfl).2 7 rfl rfl).2.1⟩

/-- A key that `Get` does not find at some time is not found at any later time. -/
theorem Cache.Get_none_later (c : Cache) (k : GoString) (t t' : Int) (h : c.Get k t = none)
    (htt : t ≤ t') : c.Get k t' = none := by
  unfold Cache.Get at h ⊢
  cases hi : c.items k with
  | none => simp
  | some item =>
    simp only [hi] at h ⊢
    by_cases hx : item.Expiration > 0 ∧ t > item.Expiration
    · have : item.Expiration > 0 ∧ t' > item.Expiration := ⟨hx.1, by omega⟩
      simp [this]
    · simp [hx] at h

/-- After a miss, `Add` stores the entry. -/
theorem Cache.Add_after_miss (c : Cache) (k x : GoString) (t t' : Int)
    (h : c.Get k t = none) (htt : t ≤ t') :
    (c.Add k x DefaultExpiration t').1 = c.set k x DefaultExpiration t' := by
  simp [Cache.Add, Cache.Get_none_later c k t t' h htt]

/-- The shape of a successful `Resolve` on a cache miss: all four collaborator calls
succeeded, in order, and the composed record was handed to `Add`. -/
theorem Resolve_success_on_miss (g : Globals) (w : World) (s : Resolver) (address : GoString)
    (hp : HasPrefix address (s.config.load g).Prefix = true)
    (hmiss : s.cache.Get (cacheKey g s address) w.nowAtGet = none)
    (hok : (Resolve g w s address).err = none) :
    ∃ conn addr te contract res,
      w.DialContext (dialCtx (s.config.load g).DialTimeout) (s.config.load g).RpcServer
        = .ok conn ∧
      resolveName w conn (cacheKey g s address) = (.ok addr, te) ∧
      w.NewNKNAccount (HexToAddress (s.config.load g).ContractAddress) conn = .ok contract ∧
      w.GetNKNAddr contract callOpts (HexToAddress addr) = .ok res ∧
      (Resolve g w s address).value = compose res ∧
      (Resolve g w s address).cache
        = (s.cache.Add (cacheKey g s address) (compose res) DefaultExpiration w.nowAtAdd).1 ∧
      (Resolve g w s address).trace =
        [.cacheGet (cacheKey g s address),
         .dial (dialCtx (s.config.load g).DialTimeout) (s.config.load g).RpcServer]
        ++ te ++
        [.newNKNAccount (HexToAddress (s.config.load g).ContractAddress) conn,
         .getNKNAddr contract callOpts (HexToAddress addr),
         .cacheAdd (cacheKey g s address) (compose res) DefaultExpiration,
         .connClose conn]
        ++ deferredCancel (s.config.load g).DialTimeout := by
  cases hd : w.DialContext (dialCtx (s.config.load g).DialTimeout) (s.config.load g).RpcServer with
  | error e => simp [Resolve, hp, hmiss, hd] at hok
  | ok conn =>
    rcases hr : resolveName w conn (cacheKey g s address) with ⟨_ | addr, te⟩
    · simp [Resolve, hp, hmiss, hd, hr] at hok
    · cases hb : w.NewNKNAccount (HexToAddress (s.config.load g).ContractAddress) conn with
      | error e => simp [Resolve, hp, hmiss, hd, hr, hb] at hok
      | ok contract =>
        cases hq : w.GetNKNAddr contract callOpts (HexToAddress addr) with
        | error e => simp [Resolve, hp, hmiss, hd, hr, hb, hq] at hok
        | ok res =>
          refine ⟨conn, addr, te, contract, res, rfl, hr, hb, hq, ?_, ?_, ?_⟩ <;>
            simp [Resolve, hp, hmiss, hd, hr, hb, hq]

theorem Cache.set_items_self (c : Cache) (k x : GoString) (t : Int) :
    (c.set k x DefaultExpiration t).items k
      = some ⟨x, if c.defaultExpiration > 0 then t + c.defaultExpiration else 0⟩ := by
  simp [Cache.set]

theorem Cache.set_items_other (c : Cache) (k k' x : GoString) (d t : Int) (h : k' ≠ k) :
    (c.set k x d t).items k' = c.items k' := by
  simp [Cache.set, h]

theorem Cache.set_defaultExpiration (c : Cache) (k x : GoString) (d t : Int) :
    (c.set k x d t).defaultExpiration = c.defaultExpiration := rfl

/-- A cache hit: the cached string is returned after the lookup alone. -/
theorem Resolve_hit (g : Globals) (w : World) (s : Resolver) (address v : GoString)
    (hp : HasPrefix address (s.config.load g).Prefix = true)
    (hget : s.cache.Get (cacheKey g s address) w.nowAtGet = some v) :
    Resolve g w s address = ⟨v, none, [.cacheGet (cacheKey g s address)], s.cache⟩ := by
  simp [Resolve, hp, hget]

/-- C2: after a successful `Resolve` on a cache miss, a second `Resolve` of the same identifier
on the same resolver, made before the entry expires, returns the same string with a nil error;
its trace is the single cache lookup (no dial, no collaborator call) and it leaves the cache as
it is, whatever the collaborators of the second call would answer. -/
theorem Resolve_second_call_hits (g g2 : Globals) (w w2 : World) (s : Resolver)
    (address : GoString)
    (hp : HasPrefix address (s.config.load g).Prefix = true)
    (hmiss : s.cache.Get (cacheKey g s address) w.nowAtGet = none)
    (hok : (Resolve g w s address).err = none)
    (hmono : w.nowAtGet ≤ w.nowAtAdd)
    (hcfg : (s.config.load g2).Prefix = (s.config.load g).Prefix)
    (hlive : s.cache.defaultExpiration > 0 →
      w2.nowAtGet ≤ w.nowAtAdd + s.cache.defaultExpiration) :
    (Resolve g2 w2 ⟨s.config, (Resolve g w s address).cache⟩ address).value
      = (Resolve g w s address).value ∧
    (Resolve g2 w2 ⟨s.config, (Resolve g w s address).cache⟩ address).err = none ∧
    (Resolve g2 w2 ⟨s.config, (Resolve g w s address).cache⟩ address).trace
      = [.cacheGet (cacheKey g s address)] ∧
    (Resolve g2 w2 ⟨s.config, (Resolve g w s address).cache⟩ address).cache
      = (Resolve g w s address).cache := by
  obtain ⟨conn, addr, te, contract, res, -, -, -, -, hv, hc, -⟩ :=
    Resolve_success_on_miss g w s address hp hmiss hok
  rw [Cache.Add_after_miss _ _ _ _ _ hmiss hmono] at hc
  generalize Resolve g w s address = r at hv hc ⊢
  have hk : cacheKey g2 ⟨s.config, r.cache⟩ address = cacheKey g s address := by
    simp [cacheKey, hcfg]
  have hp2 : HasPrefix address ((Resolver.mk s.config r.cache).config.load g2).Prefix = true := by
    simpa [hcfg] using hp
  have hget : r.cache.Get (cacheKey g s address) w2.nowAtGet = some (compose res) := by
    rw [hc]
    unfold Cache.Get
    rw [Cache.set_items_self]
    by_cases hde : s.cache.defaultExpiration > 0
    · have := hlive hde
      simp only [hde, if_true]
      rw [if_neg]
      intro hcon
      omega
    · simp [hde]
  rw [Resolve_hit g2 w2 ⟨s.config, r.cache⟩ address (compose res) hp2 (by rw [hk]; exact hget)]
  simp [hk, hv]

theorem Resolve_second_call_hits_witness :
    (Resolve Globals.init (failingWorld false false false)
      ⟨sampleResolver.config,
        (Resolve Globals.init sampleWorld sampleResolver (str "ETH:bob.eth")).cache⟩
      (str "ETH:bob.eth")).value
      = (Resolve Globals.init sampleWorld sampleResolver (str "ETH:bob.eth")).value ∧
    (Resolve Globals.init (failingWorld false false false)
      ⟨sampleResolver.config,
        (Resolve Globals.init sampleWorld sampleResolver (str "ETH:bob.eth")).cache⟩
      (str "ETH:bob.eth")).err = none ∧
    (Resolve Globals.init (failingWorld false false false)
      ⟨sampleResolver.config,
        (Resolve Globals.init sampleWorld sampleResolver (str "ETH:bob.eth")).cache⟩
      (str "ETH:bob.eth")).trace
      = [.cacheGet (cacheKey Globals.init sampleResolver (str "ETH:bob.eth"))] ∧
    (Resolve Globals.init (failingWorld false false false)
      ⟨sampleResolver.config,
        (Resolve Globals.init sampleWorld sampleResolver (str "ETH:bob.eth")).cache⟩
      (str "ETH:bob.eth")).cache
      = (Resolve Globals.init sampleWorld sampleResolver (str "ETH:bob.eth")).cache :=
  Resolve_second_call_hits Globals.init Globals.init sampleWorld (failingWorld false false false)
    sampleResolver (str "ETH:bob.eth") (by decide) (by decide) (by decide) (by decide) rfl
    (by decide)

/-- The calls made by the classification step: one name resolution for a key that is not a
hexadecimal address, none otherwise. -/
theorem resolveName_events (w : World) (conn : Conn) (key : GoString) :
    (resolveName w conn key).2
      = if IsHexAddress key = true then [] else [.ensResolve conn key] := by
  unfold resolveName
  by_cases hx : IsHexAddress key = true
  · simp [hx]
  · simp only [hx]
    cases w.ensResolve conn key <;> simp

theorem resolveName_no_cacheAdd (w : World) (conn : Conn) (key : GoString) :
    (resolveName w conn key).2.filter Event.isCacheAdd = [] := by
  rw [resolveName_events]
  split <;> simp [Event.isCacheAdd]

/-- C6: `Resolve` writes to the cache only when it succeeds on a cache miss. In that case the
one `Add` stores the returned string under the key (the identifier without the prefix) with
the default expiration of the cache, and every other entry is as before. In every other case
(prefix mismatch, cache hit, failure) the cache is unchanged and no `Add` is made. -/
theorem Resolve_cache_frame (g : Globals) (w : World) (s : Resolver) (address : GoString)
    (hmono : w.nowAtGet ≤ w.nowAtAdd) :
    ((HasPrefix address (s.config.load g).Prefix = true ∧
        s.cache.Get (cacheKey g s address) w.nowAtGet = none ∧
        (Resolve g w s address).err = none) →
      (Resolve g w s address).cache.defaultExpiration = s.cache.defaultExpiration ∧
      (Resolve g w s address).cache.items (cacheKey g s address)
        = some ⟨(Resolve g w s address).value,
            if s.cache.defaultExpiration > 0 then w.nowAtAdd + s.cache.defaultExpiration
            else 0⟩ ∧
      (∀ k, k ≠ cacheKey g s address →
        (Resolve g w s address).cache.items k = s.cache.items k) ∧
      (Resolve g w s address).trace.filter Event.isCacheAdd
        = [.cacheAdd (cacheKey g s address) (Resolve g w s address).value DefaultExpiration]) ∧
    (¬ (HasPrefix address (s.config.load g).Prefix = true ∧
        s.cache.Get (cacheKey g s address) w.nowAtGet = none ∧
        (Resolve g w s address).err = none) →
      (Resolve g w s address).cache = s.cache ∧
      (Resolve g w s address).trace.filter Event.isCacheAdd = []) := by
  refine ⟨?_, ?_⟩
  · rintro ⟨hp, hmiss, hok⟩
    obtain ⟨conn, addr, te, contract, res, -, hr, -, -, hv, hc, ht⟩ :=
      Resolve_success_on_miss g w s address hp hmiss hok
    rw [Cache.Add_after_miss _ _ _ _ _ hmiss hmono] at hc
    have hte : te.filter Event.isCacheAdd = [] := by
      have := resolveName_no_cacheAdd w conn (cacheKey g s address)
      rwa [hr] at this
    refine ⟨by rw [hc]; rfl, by rw [hc, hv, Cache.set_items_self], ?_, ?_⟩
    · intro k hk
      rw [hc, Cache.set_items_other _ _ _ _ _ _ hk]
    · rw [ht, hv]
      have hcan : (deferredCancel (s.config.load g).DialTimeout).filter Event.isCacheAdd = [] := by
        unfold deferredCancel; split <;> simp [Event.isCacheAdd]
      simp [List.filter_append, hte, hcan, Event.isCacheAdd]
  · intro hn
    have hcan : (deferredCancel (s.config.load g).DialTimeout).filter Event.isCacheAdd = [] := by
      unfold deferredCancel; split <;> simp [Event.isCacheAdd]
    by_cases hp : HasPrefix address (s.config.load g).Prefix = true
    · cases hmiss : s.cache.Get (cacheKey g s address) w.nowAtGet with
      | some v => simp [Resolve, hp, hmiss, Event.isCacheAdd]
      | none =>
        have hne : (Resolve g w s address).err ≠ none := fun h => hn ⟨hp, hmiss, h⟩
        cases hd : w.DialContext (dialCtx (s.config.load g).DialTimeout)
            (s.config.load g).RpcServer with
        | error e => simp [Resolve, hp, hmiss, hd, List.filter_append, hcan, Event.isCacheAdd]
        | ok conn =>
          have hte : ∀ r te, resolveName w conn (cacheKey g s address) = (r, te) →
              te.filter Event.isCacheAdd = [] := by
            intro r te hr
            have := resolveName_no_cacheAdd w conn (cacheKey g s address)
            rwa [hr] at this
          rcases hr : resolveName w conn (cacheKey g s address) with ⟨_ | addr, te⟩
          · simp [Resolve, hp, hmiss, hd, hr, List.filter_append, hcan, hte _ _ hr,
              Event.isCacheAdd]
          · cases hb : w.NewNKNAccount (HexToAddress (s.config.load g).ContractAddress) conn with
            | error e =>
              simp [Resolve, hp, hmiss, hd, hr, hb, List.filter_append, hcan, hte _ _ hr,
                Event.isCacheAdd]
            | ok contract =>
              cases hq : w.GetNKNAddr contract callOpts (HexToAddress addr) with
              | error e =>
                simp [Resolve, hp, hmiss, hd, hr, hb, hq, List.filter_append, hcan,
                  hte _ _ hr, Event.isCacheAdd]
              | ok res =>
                exact absurd (by simp [Resolve, hp, hmiss, hd, hr, hb, hq]) hne
    · simp [Resolve, hp]

theorem Resolve_cache_frame_witness :
    (Resolve Globals.init sampleWorld sampleResolver (str "ETH:bob.eth")).cache.items
        (str "bob.eth") = some ⟨str "alice.11fe", 0⟩ ∧
    (Resolve Globals.init (failingWorld true false false) sampleResolver
        (str "ETH:bob.eth")).cache = sampleResolver.cache :=
  ⟨((Resolve_cache_frame Globals.init sampleWorld sampleResolver (str "ETH:bob.eth")
      (by decide)).1 ⟨by decide, by decide, by decide⟩).2.1,
   ((Resolve_cache_frame Globals.init (failingWorld true false false) sampleResolver
      (str "ETH:bob.eth") (by decide)).2 (by decide)).1⟩

/-! ### Hexadecimal encoding -/

theorem hextable_eq :
    hextable = [48, 49, 50, 51, 52, 53, 54, 55, 56, 57, 97, 98, 99, 100, 101, 102] := by
  decide

theorem EncodeToString_cons (b : Byte) (l : List Byte) :
    EncodeToString (b :: l)
      = hexDigit (b.val / 16) :: hexDigit (b.val % 16) :: EncodeToString l := by
  simp [EncodeToString]

theorem EncodeToString_length (l : List Byte) : (EncodeToString l).length = 2 * l.length := by
  induction l with
  | nil => rfl
  | cons b l ih => rw [EncodeToString_cons]; simp [ih]; omega

theorem hexDigit_mem (n : Nat) (h : n < 16) : hexDigit n ∈ hextable := by
  have hl : n < hextable.length := by rw [hextable_eq]; simpa using h
  have : hexDigit n = hextable[n] := by
    unfold hexDigit
    rw [List.getD_eq_getElem _ _ hl]
  rw [this]
  exact List.getElem_mem hl

theorem EncodeToString_mem (l : List Byte) : ∀ c ∈ EncodeToString l, c ∈ hextable := by
  induction l with
  | nil => intro c hc; simp [EncodeToString] at hc
  | cons b l ih =>
    intro c hc
    rw [EncodeToString_cons] at hc
    simp only [List.mem_cons] at hc
    rcases hc with rfl | rfl | hc
    · exact hexDigit_mem _ (by omega)
    · exact hexDigit_mem _ (Nat.mod_lt _ (by decide))
    · exact ih c hc

/-- Every nibble is read back from its digit, in lower case and (for a letter) in upper case. -/
theorem fromHexChar_hexDigit :
    ∀ n : Fin 16, fromHexChar (hexDigit n.val) = some n.val ∧
      ((hexDigit n.val).val > 57 → fromHexChar (hexDigit n.val - 32) = some n.val) := by
  decide

theorem Byte_ofNat_nibbles (b : Byte) : (Fin.ofNat (b.val / 16 * 16 + b.val % 16) : Byte) = b := by
  apply Fin.ext
  have h := b.isLt
  simp only [Fin.ofNat, Fin.val_mk]
  omega

/-- Decoding the digits of an encoded byte string gives the bytes back, also when some of the
letters were put in upper case. -/
theorem Hex2Bytes_cased (f : Nat × Byte → Byte)
    (hf : ∀ i c, f (i, c) = c ∨ (c.val > 57 ∧ f (i, c) = c - 32)) (l : List Byte) (n : Nat) :
    Hex2Bytes (((EncodeToString l).enumFrom n).map f) = l := by
  induction l generalizing n with
  | nil => rfl
  | cons b l ih =>
    rw [EncodeToString_cons]
    simp only [List.enumFrom_cons, List.map_cons]
    have h1 := fromHexChar_hexDigit ⟨b.val / 16, by omega⟩
    have h2 := fromHexChar_hexDigit ⟨b.val % 16, Nat.mod_lt _ (by decide)⟩
    simp only at h1 h2
    have e1 : fromHexChar (f (n, hexDigit (b.val / 16))) = some (b.val / 16) := by
      rcases hf n (hexDigit (b.val / 16)) with h | ⟨hgt, h⟩
      · rw [h]; exact h1.1
      · rw [h]; exact h1.2 hgt
    have e2 : fromHexChar (f (n + 1, hexDigit (b.val % 16))) = some (b.val % 16) := by
      rcases hf (n + 1) (hexDigit (b.val % 16)) with h | ⟨hgt, h⟩
      · rw [h]; exact h2.1
      · rw [h]; exact h2.2 hgt
    unfold Hex2Bytes
    simp only [e1, e2]
    rw [ih, Byte_ofNat_nibbles]

/-- Decoding the output of `hex.EncodeToString` gives the bytes back. -/
theorem Hex2Bytes_EncodeToString (l : List Byte) : Hex2Bytes (EncodeToString l) = l := by
  have := Hex2Bytes_cased (fun ic => ic.2) (fun _ _ => Or.inl rfl) l 0
  simpa [List.enumFrom_map_snd] using this

theorem setBytes_of_length (b : List Byte) (h : b.length = 20) : setBytes b = b := by
  simp [setBytes, AddressLength, h]

theorem checksumCase_cases (c : Byte) (nib : Nat) :
    (if c.val > 57 && nib > 7 then c - 32 else c) = c ∨
      (c.val > 57 ∧ (if c.val > 57 && nib > 7 then c - 32 else c) = c - 32) := by
  split
  · rename_i h
    simp only [Bool.and_eq_true, decide_eq_true_eq] at h
    exact Or.inr ⟨h.1, rfl⟩
  · exact Or.inl rfl

/-- The shape of `Hex`: the prefix `0x`, then the lower-case digits with some letters moved
to upper case. -/
theorem Address.Hex_shape (keccak256 : List Byte → List Byte) (a : Address) :
    ∃ f : Nat × Byte → Byte, (∀ i c, f (i, c) = c ∨ (c.val > 57 ∧ f (i, c) = c - 32)) ∧
      a.Hex keccak256 = 48 :: 120 :: ((EncodeToString a.val).enumFrom 0).map f := by
  have h0x : str "0x" = [48, 120] := by decide
  refine ⟨fun ic =>
    if ic.2.val > 57 &&
        (if ic.1 % 2 == 0 then ((keccak256 (EncodeToString a.val)).getD (ic.1 / 2) 0).val / 16
          else ((keccak256 (EncodeToString a.val)).getD (ic.1 / 2) 0).val % 16) > 7
    then ic.2 - 32 else ic.2, ?_, ?_⟩
  · intro i c
    exact checksumCase_cases c _
  · unfold Address.Hex
    rw [h0x]
    rfl

/-- An address rendered by `Hex` is parsed back to itself by `HexToAddress`, whatever the hash
function used for the checksum. -/
theorem HexToAddress_Hex (keccak256 : List Byte → List Byte) (a : Address) :
    HexToAddress (a.Hex keccak256) = a := by
  obtain ⟨f, hf, hH⟩ := Address.Hex_shape keccak256 a
  have hlen : (((EncodeToString a.val).enumFrom 0).map f).length % 2 = 0 := by
    simp [EncodeToString_length, a.property]
  apply Subtype.ext
  rw [hH]
  simp only [HexToAddress, BytesToAddress, FromHex, has0xPrefix, List.drop_succ_cons,
    List.drop_zero]
  simp only [beq_self_eq_true, Bool.true_or, Bool.and_self, if_true, hlen]
  simp only [Nat.zero_ne_one, beq_iff_eq, if_false]
  rw [Hex2Bytes_cased f hf]
  exact setBytes_of_length _ a.property

set_option maxRecDepth 100000 in
theorem isHexCharacter_readsBack :
    ∀ c : Fin 256, isHexCharacter c = true → hexCharReadsBack c = true := by
  decide

theorem fromHexChar_of_isHexCharacter (c : Byte) (h : isHexCharacter c = true) :
    ∃ n, n < 16 ∧ fromHexChar c = some n ∧ hexDigit n = toLowerHex c := by
  have := isHexCharacter_readsBack c h
  unfold hexCharReadsBack at this
  cases hf : fromHexChar c with
  | none => simp [hf] at this
  | some n =>
    simp only [hf, Bool.and_eq_true, decide_eq_true_eq, beq_iff_eq] at this
    exact ⟨n, this.1, rfl, this.2⟩

theorem Byte_ofNat_pair (a b : Nat) (ha : a < 16) (hb : b < 16) :
    (Fin.ofNat (a * 16 + b) : Byte).val / 16 = a ∧ (Fin.ofNat (a * 16 + b) : Byte).val % 16 = b := by
  simp only [Fin.ofNat, Fin.val_mk]
  omega

/-- A string of `2 * n` hexadecimal characters decodes to `n` bytes whose encoding is the
string in lower case. -/
theorem Hex2Bytes_of_isHex (n : Nat) : ∀ l : GoString, l.length = 2 * n →
    l.all isHexCharacter = true →
    (Hex2Bytes l).length = n ∧ EncodeToString (Hex2Bytes l) = l.map toLowerHex := by
  induction n with
  | zero =>
    intro l hl _
    have : l = [] := List.length_eq_zero.mp (by omega)
    subst this
    exact ⟨rfl, rfl⟩
  | succ n ih =>
    intro l hl hall
    match l, hl, hall with
    | p :: q :: rest, hl, hall =>
      simp only [List.all_cons, Bool.and_eq_true] at hall
      obtain ⟨a, ha, hpa, hda⟩ := fromHexChar_of_isHexCharacter p hall.1
      obtain ⟨b, hb, hqb, hdb⟩ := fromHexChar_of_isHexCharacter q hall.2.1
      have hrest : rest.length = 2 * n := by simp only [List.length_cons] at hl; omega
      obtain ⟨ih1, ih2⟩ := ih rest hrest hall.2.2
      have hpair := Byte_ofNat_pair a b ha hb
      unfold Hex2Bytes
      simp only [hpa, hqb]
      refine ⟨by simp [ih1], ?_⟩
      rw [EncodeToString_cons, hpair.1, hpair.2, ih2, hda, hdb]
      rfl
    | [_], hl, _ => simp at hl; omega
    | [], hl, _ => simp at hl

/-- The address a hexadecimal address string denotes: for a string accepted by
`IsHexAddress`, the 20 bytes returned by `HexToAddress` encode to the 40 digits of the string
(without the `0x` prefix, in lower case). -/
theorem HexToAddress_of_IsHexAddress (s : GoString) (h : IsHexAddress s = true) :
    EncodeToString (HexToAddress s).val = (trim0x s).map toLowerHex := by
  unfold IsHexAddress at h
  simp only [Bool.and_eq_true, beq_iff_eq, AddressLength] at h
  change (trim0x s).length = 40 ∧ isHex (trim0x s) = true at h
  obtain ⟨hlen, hhex⟩ := h
  have hall : (trim0x s).all isHexCharacter = true := by
    unfold isHex at hhex
    split at hhex
    · exact absurd hhex (by simp)
    · exact hhex
  obtain ⟨h1, h2⟩ := Hex2Bytes_of_isHex 20 (trim0x s) (by omega) hall
  have hF : FromHex s = Hex2Bytes (trim0x s) := by
    show Hex2Bytes (if (trim0x s).length % 2 == 1 then (48 : Byte) :: trim0x s else trim0x s)
      = Hex2Bytes (trim0x s)
    rw [hlen]
    rfl
  show EncodeToString (setBytes (FromHex s)) = _
  rw [hF, setBytes_of_length _ h1, h2]

/-! ### Composition and classification -/

theorem resolveName_hex (w : World) (conn : Conn) (key : GoString)
    (hx : IsHexAddress key = true) : resolveName w conn key = (.ok key, []) := by
  simp [resolveName, hx]

theorem resolveName_name_ok (w : World) (conn : Conn) (key : GoString) (a : Address)
    (hx : IsHexAddress key = false) (he : w.ensResolve conn key = .ok a) :
    resolveName w conn key = (.ok (a.Hex w.keccak256), [.ensResolve conn key]) := by
  simp [resolveName, hx, he]

theorem resolveName_name_error (w : World) (conn : Conn) (key : GoString) (e : GoError)
    (hx : IsHexAddress key = false) (he : w.ensResolve conn key = .error e) :
    resolveName w conn key = (.error e, [.ensResolve conn key]) := by
  simp [resolveName, hx, he]

/-- C3: when `Resolve` succeeds on a cache miss and the contract query of that call returned
the record `res`, the returned string is the hexadecimal encoding of the public key when the
identifier is empty, and the identifier, a dot and that encoding otherwise. The encoding has
two characters per byte, all from `0123456789abcdef`, and decodes back to the key. -/
theorem Resolve_composed_output (g : Globals) (w : World) (s : Resolver) (address : GoString)
    (contract : Contract) (opts : CallOpts) (account : Address) (res : NKNAddr)
    (hp : HasPrefix address (s.config.load g).Prefix = true)
    (hmiss : s.cache.Get (cacheKey g s address) w.nowAtGet = none)
    (hok : (Resolve g w s address).err = none)
    (hq : Event.getNKNAddr contract opts account ∈ (Resolve g w s address).trace)
    (hres : w.GetNKNAddr contract opts account = .ok res) :
    (res.Identifier = [] →
      (Resolve g w s address).value = EncodeToString res.PublicKey) ∧
    (res.Identifier ≠ [] →
      (Resolve g w s address).value
        = res.Identifier ++ str "." ++ EncodeToString res.PublicKey) ∧
    (EncodeToString res.PublicKey).length = 2 * res.PublicKey.length ∧
    (∀ c ∈ EncodeToString res.PublicKey, c ∈ str "0123456789abcdef") ∧
    Hex2Bytes (EncodeToString res.PublicKey) = res.PublicKey := by
  obtain ⟨conn, addr, te, contract', res', -, hr, -, hq', hv, -, ht⟩ :=
    Resolve_success_on_miss g w s address hp hmiss hok
  have hte : te = if IsHexAddress (cacheKey g s address) = true then []
      else [.ensResolve conn (cacheKey g s address)] := by
    have := resolveName_events w conn (cacheKey g s address)
    rwa [hr] at this
  have hmem : Event.getNKNAddr contract opts account
      = Event.getNKNAddr contract' callOpts (HexToAddress addr) := by
    rw [ht, hte] at hq
    unfold deferredCancel at hq
    split at hq <;> split at hq <;> simpa using hq
  injection hmem with h1 h2 h3
  subst h1 h2 h3
  rw [hq'] at hres
  injection hres with hres
  subst hres
  refine ⟨?_, ?_, EncodeToString_length _, EncodeToString_mem _, Hex2Bytes_EncodeToString _⟩
  · intro hid
    rw [hv]
    simp [compose, hid]
  · intro hid
    rw [hv]
    simp [compose, hid]

theorem Resolve_composed_output_witness :
    (Resolve Globals.init sampleWorld sampleResolver (str "ETH:bob.eth")).value
      = str "alice" ++ str "." ++ EncodeToString [0x11, 0xfe] :=
  (Resolve_composed_output Globals.init sampleWorld sampleResolver (str "ETH:bob.eth") 7 callOpts
    sampleAddress ⟨str "alice", [0x11, 0xfe]⟩ (by decide) (by decide) (by decide) (by decide)
    rfl).2.1 (by decide)

/-- C4: on a cache miss with a successful dial, a key that is a hexadecimal address leads to no
call of the name-resolution collaborator, and the one contract query is made on the address the
key denotes (the 20 bytes whose hexadecimal digits are those of the key); any other key leads to exactly one name-resolution call, on the key itself,
right after the dial and before any contract call, contract calls are made only if that
resolution succeeded, and the one contract query is then made on the resolved address. -/
theorem Resolve_classification (g : Globals) (w : World) (s : Resolver) (address : GoString)
    (conn : Conn)
    (hp : HasPrefix address (s.config.load g).Prefix = true)
    (hmiss : s.cache.Get (cacheKey g s address) w.nowAtGet = none)
    (hd : w.DialContext (dialCtx (s.config.load g).DialTimeout) (s.config.load g).RpcServer
      = .ok conn) :
    (IsHexAddress (cacheKey g s address) = true →
      (Resolve g w s address).trace.filter Event.isEnsResolve = [] ∧
      EncodeToString (HexToAddress (cacheKey g s address)).val
        = (trim0x (cacheKey g s address)).map toLowerHex ∧
      (∀ contract,
        w.NewNKNAccount (HexToAddress (s.config.load g).ContractAddress) conn = .ok contract →
        (Resolve g w s address).trace.filter Event.isQuery
          = [.getNKNAddr contract callOpts (HexToAddress (cacheKey g s address))])) ∧
    (IsHexAddress (cacheKey g s address) = false →
      (Resolve g w s address).trace.filter Event.isEnsResolve
        = [.ensResolve conn (cacheKey g s address)] ∧
      (∃ post, (Resolve g w s address).trace =
        [.cacheGet (cacheKey g s address),
         .dial (dialCtx (s.config.load g).DialTimeout) (s.config.load g).RpcServer,
         .ensResolve conn (cacheKey g s address)] ++ post) ∧
      ((∃ e ∈ (Resolve g w s address).trace, e.isContract = true) →
        ∃ a, w.ensResolve conn (cacheKey g s address) = .ok a) ∧
      (∀ a contract, w.ensResolve conn (cacheKey g s address) = .ok a →
        w.NewNKNAccount (HexToAddress (s.config.load g).ContractAddress) conn = .ok contract →
        (Resolve g w s address).trace.filter Event.isQuery
          = [.getNKNAddr contract callOpts a])) := by
  have hcan : ∀ p : Event → Bool, p Event.cancel = false →
      (deferredCancel (s.config.load g).DialTimeout).filter p = [] := by
    intro p hpc
    unfold deferredCancel; split <;> simp [hpc]
  have hE := hcan Event.isEnsResolve rfl
  have hQ := hcan Event.isQuery rfl
  have hC := hcan Event.isContract rfl
  refine ⟨?_, ?_⟩
  · intro hx
    have hr := resolveName_hex w conn _ hx
    refine ⟨?_, HexToAddress_of_IsHexAddress _ hx, ?_⟩
    · cases hb : w.NewNKNAccount (HexToAddress (s.config.load g).ContractAddress) conn with
      | error e =>
        simp [Resolve, hp, hmiss, hd, hr, hb, List.filter_append, hE, Event.isEnsResolve]
      | ok contract =>
        cases hq : w.GetNKNAddr contract callOpts (HexToAddress (cacheKey g s address)) <;>
          simp [Resolve, hp, hmiss, hd, hr, hb, hq, List.filter_append, hE, Event.isEnsResolve]
    · intro contract hb
      cases hq : w.GetNKNAddr contract callOpts (HexToAddress (cacheKey g s address)) <;>
        simp [Resolve, hp, hmiss, hd, hr, hb, hq, List.filter_append, hQ, Event.isQuery]
  · intro hx
    cases he : w.ensResolve conn (cacheKey g s address) with
    | error e =>
      have hr := resolveName_name_error w conn _ e hx he
      refine ⟨?_, ?_, ?_, ?_⟩
      · simp [Resolve, hp, hmiss, hd, hr, List.filter_append, hE, Event.isEnsResolve]
      · exact ⟨_, by simp [Resolve, hp, hmiss, hd, hr]; rfl⟩
      · rintro ⟨e', hmem, hcon⟩
        have : (Resolve g w s address).trace.filter Event.isContract = [] := by
          simp [Resolve, hp, hmiss, hd, hr, List.filter_append, hC, Event.isContract]
        have h2 : e' ∈ (Resolve g w s address).trace.filter Event.isContract :=
          List.mem_filter.mpr ⟨hmem, hcon⟩
        rw [this] at h2
        exact absurd h2 (List.not_mem_nil _)
      · intro a contract ha
        exact absurd ha (by simp)
    | ok a =>
      have hr := resolveName_name_ok w conn _ a hx he
      refine ⟨?_, ?_, fun _ => ⟨a, rfl⟩, ?_⟩
      · cases hb : w.NewNKNAccount (HexToAddress (s.config.load g).ContractAddress) conn with
        | error e =>
          simp [Resolve, hp, hmiss, hd, hr, hb, List.filter_append, hE, Event.isEnsResolve]
        | ok contract =>
          cases hq : w.GetNKNAddr contract callOpts (HexToAddress (a.Hex w.keccak256)) <;>
            simp [Resolve, hp, hmiss, hd, hr, hb, hq, List.filter_append, hE,
              Event.isEnsResolve]
      · cases hb : w.NewNKNAccount (HexToAddress (s.config.load g).ContractAddress) conn with
        | error e => exact ⟨_, by simp [Resolve, hp, hmiss, hd, hr, hb]; rfl⟩
        | ok contract =>
          cases hq : w.GetNKNAddr contract callOpts (HexToAddress (a.Hex w.keccak256)) with
          | error e => exact ⟨_, by simp [Resolve, hp, hmiss, hd, hr, hb, hq]; rfl⟩
          | ok res => exact ⟨_, by simp [Resolve, hp, hmiss, hd, hr, hb, hq]; rfl⟩
      · intro a' contract ha hb
        injection ha with ha
        subst ha
        cases hq : w.GetNKNAddr contract callOpts a <;>
          simp [Resolve, hp, hmiss, hd, hr, hb, hq, List.filter_append, hQ, Event.isQuery,
            HexToAddress_Hex]

theorem Resolve_classification_witness :
    (Resolve Globals.init sampleWorld sampleResolver
        (str "ETH:0x00000000000000000000000000000000000000Ab")).trace.filter Event.isEnsResolve
      = [] ∧
    (Resolve Globals.init sampleWorld sampleResolver (str "ETH:bob.eth")).trace.filter
        Event.isEnsResolve = [.ensResolve 1 (str "bob.eth")] :=
  ⟨((Resolve_classification Globals.init sampleWorld sampleResolver
      (str "ETH:0x00000000000000000000000000000000000000Ab") 1 (by decide) (by decide) rfl).1
      (by decide)).1,
   ((Resolve_classification Globals.init sampleWorld sampleResolver (str "ETH:bob.eth") 1
      (by decide) (by decide) rfl).2 (by decide)).1⟩

/-! ### Configuration -/

/-- C7: after `MergeConfig` was called with an override that sets the prefix `X:`, the call
`MergeConfig(nil)` hands back a configuration with the prefix `X:`, not the built-in defaults,
and a merge of an override that sets only the dial timeout keeps the prefix `X:` instead of
the built-in `ETH:`. -/
theorem MergeConfig_after_override :
    MergeConfig.value (MergeConfig Globals.init (some (prefixOnly (str "X:")))).2 none
      = some { DefaultConfig with Prefix := str "X:" } ∧
    MergeConfig.value (MergeConfig Globals.init (some (prefixOnly (str "X:")))).2 none
      ≠ some DefaultConfig ∧
    MergeConfig.value (MergeConfig Globals.init (some (prefixOnly (str "X:")))).2
        (some (dialTimeoutOnly 7))
      = some { DefaultConfig with Prefix := str "X:", DialTimeout := 7 } ∧
    MergeConfig.value (MergeConfig Globals.init (some (prefixOnly (str "X:")))).2
        (some (dialTimeoutOnly 7))
      ≠ some (overlay DefaultConfig (dialTimeoutOnly 7)) := by
  decide

/-- C8: one call of `MergeConfig` with an override that sets the prefix `X:` changes the
package variable `DefaultConfig`: what `GetDefaultConfig` points to afterwards has the prefix
`X:` and is no longer the built-in default configuration. -/
theorem MergeConfig_writes_DefaultConfig :
    GetDefaultConfig.load Globals.init = DefaultConfig ∧
    GetDefaultConfig.load (MergeConfig Globals.init (some (prefixOnly (str "X:")))).2
      = { DefaultConfig with Prefix := str "X:" } ∧
    GetDefaultConfig.load (MergeConfig Globals.init (some (prefixOnly (str "X:")))).2
      ≠ DefaultConfig := by
  decide

/-- C9: a resolver built with the prefix `A:` resolves `A:bob.eth`; once a second resolver is
built with the prefix `B:`, the first resolver reads the prefix `B:` and answers the same
identifier with the empty string and no call at all. -/
theorem NewResolver_config_shared :
    ∃ r1 r2,
      (NewResolver Globals.init sampleWorld (some (prefixOnly (str "A:")))).resolver = some r1 ∧
      (NewResolver (NewResolver Globals.init sampleWorld (some (prefixOnly (str "A:")))).globals
        sampleWorld (some (prefixOnly (str "B:")))).resolver = some r2 ∧
      (Resolve (NewResolver Globals.init sampleWorld (some (prefixOnly (str "A:")))).globals
        sampleWorld r1 (str "A:bob.eth")).value = str "alice.11fe" ∧
      (r1.config.load
        (NewResolver (NewResolver Globals.init sampleWorld (some (prefixOnly (str "A:")))).globals
          sampleWorld (some (prefixOnly (str "B:")))).globals).Prefix = str "B:" ∧
      (Resolve
        (NewResolver (NewResolver Globals.init sampleWorld (some (prefixOnly (str "A:")))).globals
          sampleWorld (some (prefixOnly (str "B:")))).globals
        sampleWorld r1 (str "A:bob.eth")).value = [] ∧
      (Resolve
        (NewResolver (NewResolver Globals.init sampleWorld (some (prefixOnly (str "A:")))).globals
          sampleWorld (some (prefixOnly (str "B:")))).globals
        sampleWorld r1 (str "A:bob.eth")).trace = [] :=
  ⟨_, _, rfl, rfl, by decide, by decide, by decide, by decide⟩

/-! ### Dial timeout -/

/-- The `int64` product of a millisecond count in range is exact. -/
theorem Duration_mul_Millisecond (n : Int) (h0 : 0 < n) (h1 : n ≤ 9223372036854) :
    Duration.mul n Millisecond = n * 1000000 := by
  unfold Duration.mul wrapInt64 Millisecond
  omega

/-- The dial made by `NewResolver` always comes first and uses the merged configuration. -/
theorem NewResolver_dial (g : Globals) (w : World) (c : Config) :
    (NewResolver g w (some c)).trace.filter Event.isDial
      = [.dial (dialCtx (overlay g.DefaultConfig c).DialTimeout)
          (overlay g.DefaultConfig c).RpcServer] := by
  have hcan : (deferredCancel (overlay g.DefaultConfig c).DialTimeout).filter Event.isDial
      = [] := by
    unfold deferredCancel; split <;> simp [Event.isDial]
  simp only [NewResolver, MergeConfig_some, ConfigPtr.load]
  cases hd : w.DialContext (dialCtx (overlay g.DefaultConfig c).DialTimeout)
      (overlay g.DefaultConfig c).RpcServer with
  | error e => simp [List.filter_append, hcan, Event.isDial]
  | ok conn =>
    cases hb : w.NewNKNAccount (HexToAddress (overlay g.DefaultConfig c).ContractAddress) conn <;>
      simp [hb, List.filter_append, hcan, Event.isDial]

/-- The dial made by a cache-missing `Resolve` uses the configuration the resolver points to. -/
theorem Resolve_dial (g : Globals) (w : World) (s : Resolver) (address : GoString)
    (hp : HasPrefix address (s.config.load g).Prefix = true)
    (hmiss : s.cache.Get (cacheKey g s address) w.nowAtGet = none) :
    (Resolve g w s address).trace.filter Event.isDial
      = [.dial (dialCtx (s.config.load g).DialTimeout) (s.config.load g).RpcServer] := by
  have hcan : (deferredCancel (s.config.load g).DialTimeout).filter Event.isDial = [] := by
    unfold deferredCancel; split <;> simp [Event.isDial]
  cases hd : w.DialContext (dialCtx (s.config.load g).DialTimeout)
      (s.config.load g).RpcServer with
  | error e => simp [Resolve, hp, hmiss, hd, List.filter_append, hcan, Event.isDial]
  | ok conn =>
    have hte : (resolveName w conn (cacheKey g s address)).2.filter Event.isDial = [] := by
      rw [resolveName_events]; split <;> simp [Event.isDial]
    rcases hr : resolveName w conn (cacheKey g s address) with ⟨_ | addr, te⟩
    · rw [hr] at hte
      simp [Resolve, hp, hmiss, hd, hr, List.filter_append, hcan, hte, Event.isDial]
    · rw [hr] at hte
      simp only at hte
      cases hb : w.NewNKNAccount (HexToAddress (s.config.load g).ContractAddress) conn with
      | error e =>
        simp [Resolve, hp, hmiss, hd, hr, hb, List.filter_append, hcan, hte, Event.isDial]
      | ok contract =>
        cases hq : w.GetNKNAddr contract callOpts (HexToAddress addr) <;>
          simp [Resolve, hp, hmiss, hd, hr, hb, hq, List.filter_append, hcan, hte,
            Event.isDial]

/-- C10, as the code has it: a `DialTimeout` of `0` passed to `NewResolver` is treated as not
set, so the dial gets the 5000 ms deadline of the built-in defaults instead of none; and a
`DialTimeout` of 9223372036855 overflows the `int64` product, giving a negative duration in
place of a deadline of that many milliseconds. -/
theorem dial_timeout_counterexample :
    (dialTimeoutOnly 0).DialTimeout ≤ 0 ∧
    (NewResolver Globals.init sampleWorld (some (dialTimeoutOnly 0))).trace.filter Event.isDial
      = [.dial (some (5000 * Millisecond)) []] ∧
    (NewResolver Globals.init sampleWorld (some (dialTimeoutOnly 0))).trace.filter Event.isDial
      ≠ [.dial none []] ∧
    (NewResolver Globals.init sampleWorld (some (dialTimeoutOnly 9223372036855))).trace.filter
        Event.isDial = [.dial (some (-9223372036854551616)) []] ∧
    (-9223372036854551616 : Int) ≠ 9223372036855 * Millisecond := by
  decide

/-- C10 (amended): `NewResolver` dials once, with no deadline when the passed `DialTimeout`
is negative, with a deadline of `n` milliseconds when it is `n` with `0 < n ≤ 9223372036854`,
and with the `DialTimeout` of `DefaultConfig` (5000 ms for the built-in defaults) when it is
`0`. A cache-missing `Resolve` dials once, with no deadline when the `DialTimeout` of the
configuration its resolver points to is `≤ 0` at that call, and with a deadline of `n`
milliseconds when it is `n` with `0 < n ≤ 9223372036854`. -/
theorem dial_timeout (g : Globals) (w : World) (c : Config) (s : Resolver)
    (address : GoString) :
    (c.DialTimeout < 0 →
      (NewResolver g w (some c)).trace.filter Event.isDial
        = [.dial none (overlay g.DefaultConfig c).RpcServer]) ∧
    (0 < c.DialTimeout → c.DialTimeout ≤ 9223372036854 →
      (NewResolver g w (some c)).trace.filter Event.isDial
        = [.dial (some (c.DialTimeout * Millisecond)) (overlay g.DefaultConfig c).RpcServer]) ∧
    (c.DialTimeout = 0 →
      (NewResolver g w (some c)).trace.filter Event.isDial
        = [.dial (dialCtx g.DefaultConfig.DialTimeout) (overlay g.DefaultConfig c).RpcServer] ∧
      (NewResolver Globals.init w (some c)).trace.filter Event.isDial
        = [.dial (some (5000 * Millisecond)) (overlay DefaultConfig c).RpcServer]) ∧
    (HasPrefix address (s.config.load g).Prefix = true →
      s.cache.Get (cacheKey g s address) w.nowAtGet = none →
      ((s.config.load g).DialTimeout ≤ 0 →
        (Resolve g w s address).trace.filter Event.isDial
          = [.dial none (s.config.load g).RpcServer]) ∧
      (0 < (s.config.load g).DialTimeout → (s.config.load g).DialTimeout ≤ 9223372036854 →
        (Resolve g w s address).trace.filter Event.isDial
          = [.dial (some ((s.config.load g).DialTimeout * Millisecond))
              (s.config.load g).RpcServer])) := by
  refine ⟨?_, ?_, ?_, ?_⟩
  · intro h
    have hne : c.DialTimeout ≠ 0 := by omega
    have he : (overlay g.DefaultConfig c).DialTimeout = c.DialTimeout := by simp [overlay, hne]
    rw [NewResolver_dial, he]
    have : ¬ c.DialTimeout > 0 := by omega
    simp [dialCtx, this]
  · intro h0 h1
    have hne : c.DialTimeout ≠ 0 := by omega
    have he : (overlay g.DefaultConfig c).DialTimeout = c.DialTimeout := by simp [overlay, hne]
    rw [NewResolver_dial, he, dialCtx, if_pos h0, Duration_mul_Millisecond _ h0 h1]
    rfl
  · intro h
    have he : ∀ g' : Globals, (overlay g'.DefaultConfig c).DialTimeout
        = g'.DefaultConfig.DialTimeout := by
      intro g'; simp [overlay, h]
    refine ⟨by rw [NewResolver_dial, he], ?_⟩
    rw [NewResolver_dial, he]
    rfl
  · intro hp hmiss
    rw [Resolve_dial g w s address hp hmiss]
    refine ⟨?_, ?_⟩
    · intro h
      have : ¬ (s.config.load g).DialTimeout > 0 := by omega
      simp [dialCtx, this]
    · intro h0 h1
      rw [dialCtx, if_pos h0, Duration_mul_Millisecond _ h0 h1]
      rfl

theorem dial_timeout_witness :
    (NewResolver Globals.init sampleWorld (some (dialTimeoutOnly (-1)))).trace.filter
        Event.isDial = [.dial none []] ∧
    (NewResolver Globals.init sampleWorld (some (dialTimeoutOnly 250))).trace.filter
        Event.isDial = [.dial (some 250000000) []] ∧
    (Resolve Globals.init sampleWorld sampleResolver (str "ETH:bob.eth")).trace.filter
        Event.isDial = [.dial (some 5000000000) []] :=
  ⟨(dial_timeout Globals.init sampleWorld (dialTimeoutOnly (-1)) sampleResolver []).1
      (by decide),
   (dial_timeout Globals.init sampleWorld (dialTimeoutOnly 250) sampleResolver []).2.1
      (by decide) (by decide),
   ((dial_timeout Globals.init sampleWorld (dialTimeoutOnly 0) sampleResolver
      (str "ETH:bob.eth")).2.2.2 (by decide) (by decide)).2 (by decide) (by decide)⟩

end EthResolver
